import Mathlib

/-!
Verification development for the volumetric drilling plugin
(src/volumetric_drilling.cpp).  The voxel-collision flood fill, the carving
drain of `physicsUpdate`, the dirty-region accumulator, the shaft-cursor
arbiter, the drill-size cycling and the voxel-size computation of `init` are
shallowly embedded below; `double` arithmetic is embedded as rational
arithmetic, the C++ recursion is embedded with an explicit fuel that is proved
sufficient, and the fields of the plugin class that each function touches are
threaded as explicit state.
-/

/-- Voxel grid index `(ix, iy, iz)`, the `array<int,3>` of the source. -/
abbrev Voxel : Type := ℤ × ℤ × ℤ

/-- World-space position (a `cVector3d`); `double` coordinates are embedded as
rationals. -/
abbrev Pos : Type := ℚ × ℚ × ℚ

/-- Difference of two positions, as in `cVector3d` subtraction. -/
def vsub (a b : Pos) : Pos := (a.1 - b.1, a.2.1 - b.2.1, a.2.2 - b.2.2)

/-- Squared length of a vector, `cVector3d::lengthsq`. -/
def lengthsq (v : Pos) : ℚ := v.1 ^ 2 + v.2.1 ^ 2 + v.2.2 ^ 2

/-- RGBA byte color, a `cColorb`. -/
structure Color where
  r : ℕ
  g : ℕ
  b : ℕ
  a : ℕ
deriving DecidableEq

/-- The color `m_zeroColor = cColorb(0x00, 0x00, 0x00, 0x00)` (line 90), the
EMPTY marker for removed voxels. -/
def m_zeroColor : Color := ⟨0, 0, 0, 0⟩

/-- The color `m_boneColor = cColorb(255, 249, 219, 255)` (line 92). -/
def m_boneColor : Color := ⟨255, 249, 219, 255⟩

/-- Parameters of one collision query: the 3D texture dimensions `texSize`,
the precomputed `voxelCorners` lookup table, the tip tool cursor's proxy
position `getGlobalPosProxy()`, the burr mesh radius, and the current voxel
colors of the texture image. -/
structure DrillParams where
  texSize : ℤ × ℤ × ℤ
  voxelCorners : Voxel → Fin 8 → Pos
  proxyPos : Pos
  burrRadius : ℚ
  colors : Voxel → Color

/-- Corner-in-sphere count of a voxel (lines 331-343): the number of its 8
precomputed corners whose squared distance to the tip proxy position is
strictly below the burr radius squared. -/
def numCornersInTool (P : DrillParams) (v : Voxel) : ℕ :=
  (Finset.univ.filter fun cor : Fin 8 =>
    lengthsq (vsub P.proxyPos (P.voxelCorners v cor)) < P.burrRadius ^ 2).card

/-- Bounds check of the neighbor-expansion guard (lines 364-366). -/
def inBounds (P : DrillParams) (v : Voxel) : Prop :=
  0 ≤ v.1 ∧ v.1 < P.texSize.1 ∧ 0 ≤ v.2.1 ∧ v.2.1 < P.texSize.2.1 ∧
    0 ≤ v.2.2 ∧ v.2.2 < P.texSize.2.2

instance (P : DrillParams) (v : Voxel) : Decidable (inBounds P v) := by
  unfold inBounds; infer_instance

/-- Mutable state threaded through `recursiveCheckFromVoxel`: the
`alreadyChecked` set and the `listOfCollidingVoxels` container. -/
structure SearchState where
  alreadyChecked : Finset Voxel
  listOfCollidingVoxels : List Voxel
deriving DecidableEq

/-- Offsets of the nested loops `for i, j, k in {-1, 0, 1}` (lines 359-361) in
loop order; the `(0,0,0)` self offset is skipped by the recursion guard, as in
the source. -/
def neighborOffsets : List (ℤ × ℤ × ℤ) :=
  [-1, 0, 1].flatMap fun i => [-1, 0, 1].flatMap fun j => [-1, 0, 1].map fun k => (i, j, k)

/-- Inner neighbor loop of `recursiveCheckFromVoxel` (lines 358-373): tries
each offset in order, recursing through `step` on in-bounds non-self
neighbors; fuel exhaustion inside `step` propagates as `none`. -/
def runNeighbors (P : DrillParams) (step : Voxel → SearchState → Option SearchState)
    (v : Voxel) : List (ℤ × ℤ × ℤ) → SearchState → Option SearchState
  | [], s => some s
  | off :: rest, s =>
    if off ≠ (0, 0, 0) ∧ inBounds P (v + off) then
      match step (v + off) s with
      | none => none
      | some s1 => runNeighbors P step v rest s1
    else runNeighbors P step v rest s

/-- Translation of `recursiveCheckFromVoxel` (lines 308-375): return at once
on an already checked index, otherwise mark checked, count corners in the
tool, push the voxel when the count is strictly between 0 and 8 and its color
is not `m_zeroColor`, stop when there is no collision and the checked set has
more than the seed entry, and otherwise expand to the 26 neighbors.  The C++
recursion carries no fuel; the fuel argument bounds the recursion depth here
and is proved sufficient at `gridCard P + 1` for in-bounds seeds (fuel
exhaustion yields `none`). -/
def recursiveCheckFromVoxel (P : DrillParams) :
    ℕ → Voxel → SearchState → Option SearchState
  | 0, _, _ => none
  | fuel + 1, v, s =>
    if v ∈ s.alreadyChecked then some s
    else
      let s1 : SearchState := ⟨insert v s.alreadyChecked, s.listOfCollidingVoxels⟩
      let n := numCornersInTool P v
      let s2 : SearchState :=
        if 0 < n ∧ n < 8 ∧ P.colors v ≠ m_zeroColor then
          ⟨s1.alreadyChecked, s1.listOfCollidingVoxels ++ [v]⟩
        else s1
      if ¬(0 < n ∧ n < 8) ∧ s1.alreadyChecked.card ≠ 1 then some s2
      else runNeighbors P (recursiveCheckFromVoxel P fuel) v neighborOffsets s2

/-- Number of voxels in the texture grid, `Dx * Dy * Dz`. -/
def gridCard (P : DrillParams) : ℕ :=
  P.texSize.1.toNat * P.texSize.2.1.toNat * P.texSize.2.2.toNat

/-- Finset of all in-bounds voxel indices of the grid. -/
def gridFinset (P : DrillParams) : Finset Voxel :=
  Finset.Ico 0 P.texSize.1 ×ˢ (Finset.Ico 0 P.texSize.2.1 ×ˢ Finset.Ico 0 P.texSize.2.2)

/-- Translation of `findIndexOfAllCollidingVoxels` (lines 385-406): the seed
(the first-contact voxel index reported by the collision event of the solver)
is pushed into the container unconditionally, then the recursive check runs
from the seed with a fresh `alreadyChecked` set. -/
def findIndexOfAllCollidingVoxels (P : DrillParams) (seed : Voxel) :
    Option (List Voxel) :=
  match recursiveCheckFromVoxel P (gridCard P + 1) seed ⟨∅, [seed]⟩ with
  | none => none
  | some s => some s.listOfCollidingVoxels

theorem gridFinset_mem (P : DrillParams) (v : Voxel) :
    v ∈ gridFinset P ↔ inBounds P v := by
  cases v with
  | mk x yz =>
    cases yz with
    | mk y z =>
      simp [gridFinset, inBounds, Finset.mem_product, Finset.mem_Ico, and_assoc]

theorem gridFinset_card (P : DrillParams) : (gridFinset P).card = gridCard P := by
  simp [gridFinset, gridCard, Finset.card_product, Int.card_Ico, mul_assoc]

theorem recursiveCheck_succ (P : DrillParams) (fuel : ℕ) (v : Voxel) (s : SearchState) :
    recursiveCheckFromVoxel P (fuel + 1) v s =
      if v ∈ s.alreadyChecked then some s
      else
        let n := numCornersInTool P v
        let s2 : SearchState :=
          if 0 < n ∧ n < 8 ∧ P.colors v ≠ m_zeroColor then
            ⟨insert v s.alreadyChecked, s.listOfCollidingVoxels ++ [v]⟩
          else ⟨insert v s.alreadyChecked, s.listOfCollidingVoxels⟩
        if ¬(0 < n ∧ n < 8) ∧ (insert v s.alreadyChecked).card ≠ 1 then some s2
        else runNeighbors P (recursiveCheckFromVoxel P fuel) v neighborOffsets s2 := rfl

/-- Collision predicate of the per-voxel test together with the push guard of
lines 344-349: the corner-in-sphere count is strictly between 0 and 8 and the
current color is not EMPTY. -/
def goodVoxel (P : DrillParams) (v : Voxel) : Prop :=
  (0 < numCornersInTool P v ∧ numCornersInTool P v < 8) ∧ P.colors v ≠ m_zeroColor

/-- Relation between the search state before and after a completed recursive
call from an in-bounds voxel: the checked set grows, every new checked entry
is in bounds, and the colliding list is extended by a duplicate-free block of
freshly checked voxels that pass both the corner test and the color test. -/
def GoodStep (P : DrillParams) (s s1 : SearchState) : Prop :=
  s.alreadyChecked ⊆ s1.alreadyChecked ∧
  (∀ w ∈ s1.alreadyChecked, w ∈ s.alreadyChecked ∨ inBounds P w) ∧
  ∃ t, s1.listOfCollidingVoxels = s.listOfCollidingVoxels ++ t ∧ t.Nodup ∧
    ∀ w ∈ t, goodVoxel P w ∧ w ∈ s1.alreadyChecked ∧ w ∉ s.alreadyChecked

theorem GoodStep.rfl (P : DrillParams) (s : SearchState) : GoodStep P s s := by
  refine ⟨Finset.Subset.refl _, fun w hw => Or.inl hw, [], by simp, by simp, by simp⟩

theorem GoodStep.trans {P : DrillParams} {s a b : SearchState}
    (h1 : GoodStep P s a) (h2 : GoodStep P a b) : GoodStep P s b := by
  obtain ⟨hsub1, hnew1, t1, hl1, hnd1, hmem1⟩ := h1
  obtain ⟨hsub2, hnew2, t2, hl2, hnd2, hmem2⟩ := h2
  refine ⟨hsub1.trans hsub2, ?_, t1 ++ t2, ?_, ?_, ?_⟩
  · intro w hw
    rcases hnew2 w hw with h | h
    · rcases hnew1 w h with h3 | h3
      · exact Or.inl h3
      · exact Or.inr h3
    · exact Or.inr h
  · rw [hl2, hl1, List.append_assoc]
  · refine List.Nodup.append hnd1 hnd2 ?_
    intro w hw1 hw2
    exact (hmem2 w hw2).2.2 (hmem1 w hw1).2.1
  · intro w hw
    rcases List.mem_append.mp hw with h | h
    · exact ⟨(hmem1 w h).1, hsub2 (hmem1 w h).2.1, (hmem1 w h).2.2⟩
    · refine ⟨(hmem2 w h).1, (hmem2 w h).2.1, fun hs => (hmem2 w h).2.2 (hsub1 hs)⟩

theorem runNeighbors_goodStep {P : DrillParams}
    {step : Voxel → SearchState → Option SearchState} {v : Voxel}
    (hstep : ∀ w t t1, inBounds P w → step w t = some t1 → GoodStep P t t1) :
    ∀ offs s s1, runNeighbors P step v offs s = some s1 → GoodStep P s s1 := by
  intro offs
  induction offs with
  | nil =>
    intro s s1 h
    simp only [runNeighbors, Option.some.injEq] at h
    exact h ▸ GoodStep.rfl P s
  | cons off rest ih =>
    intro s s1 h
    simp only [runNeighbors] at h
    split at h
    · rename_i hcond
      cases hmid : step (v + off) s with
      | none => rw [hmid] at h; exact absurd h (by simp)
      | some smid =>
        rw [hmid] at h
        exact (hstep _ _ _ hcond.2 hmid).trans (ih _ _ h)
    · exact ih _ _ h

theorem recursiveCheck_goodStep (P : DrillParams) :
    ∀ fuel v s s1, inBounds P v →
      recursiveCheckFromVoxel P fuel v s = some s1 → GoodStep P s s1 := by
  intro fuel
  induction fuel with
  | zero => intro v s s1 _ h; exact absurd h (by simp [recursiveCheckFromVoxel])
  | succ fuel ih =>
    intro v s s1 hv h
    rw [recursiveCheck_succ] at h
    by_cases hchk : v ∈ s.alreadyChecked
    · simp only [hchk, if_true, Option.some.injEq] at h
      exact h ▸ GoodStep.rfl P s
    · simp only [hchk, if_false] at h
      set s2 : SearchState :=
        if 0 < numCornersInTool P v ∧ numCornersInTool P v < 8 ∧ P.colors v ≠ m_zeroColor then
          ⟨insert v s.alreadyChecked, s.listOfCollidingVoxels ++ [v]⟩
        else ⟨insert v s.alreadyChecked, s.listOfCollidingVoxels⟩ with hs2
      have hstep2 : GoodStep P s s2 := by
        rw [hs2]
        split
        · rename_i hcol
          refine ⟨Finset.subset_insert _ _, ?_, [v], by simp, by simp, ?_⟩
          · intro w hw
            rcases Finset.mem_insert.mp hw with rfl | h
            · exact Or.inr hv
            · exact Or.inl h
          · intro w hw
            rcases List.mem_singleton.mp hw with rfl
            exact ⟨⟨⟨hcol.1, hcol.2.1⟩, hcol.2.2⟩, Finset.mem_insert_self _ _, hchk⟩
        · rename_i hcol
          refine ⟨Finset.subset_insert _ _, ?_, [], by simp, by simp, by simp⟩
          intro w hw
          rcases Finset.mem_insert.mp hw with rfl | h
          · exact Or.inr hv
          · exact Or.inl h
      split at h
      · simp only [Option.some.injEq] at h
        exact h ▸ hstep2
      · exact hstep2.trans (runNeighbors_goodStep (fun w t t1 hw hh => ih w t t1 hw hh)
          neighborOffsets s2 s1 h)

/-- Number of checked voxels that lie inside the grid. -/
def checkedInGrid (P : DrillParams) (s : SearchState) : ℕ :=
  (s.alreadyChecked ∩ gridFinset P).card

theorem checkedInGrid_le (P : DrillParams) (s : SearchState) :
    checkedInGrid P s ≤ gridCard P := by
  rw [← gridFinset_card]
  exact Finset.card_le_card (Finset.inter_subset_right)

theorem checkedInGrid_mono {P : DrillParams} {s t : SearchState}
    (h : s.alreadyChecked ⊆ t.alreadyChecked) :
    checkedInGrid P s ≤ checkedInGrid P t :=
  Finset.card_le_card (Finset.inter_subset_inter h (Finset.Subset.refl _))

theorem runNeighbors_isSome {P : DrillParams}
    {step : Voxel → SearchState → Option SearchState} {v : Voxel} {K : ℕ}
    (hmono : ∀ w t t1, inBounds P w → step w t = some t1 →
      t.alreadyChecked ⊆ t1.alreadyChecked)
    (hsome : ∀ w t, inBounds P w → K ≤ checkedInGrid P t → (step w t).isSome) :
    ∀ offs t, K ≤ checkedInGrid P t → (runNeighbors P step v offs t).isSome := by
  intro offs
  induction offs with
  | nil => intro t _; simp [runNeighbors]
  | cons off rest ih =>
    intro t hK
    simp only [runNeighbors]
    split
    · rename_i hcond
      cases hmid : step (v + off) t with
      | none =>
        have := hsome (v + off) t hcond.2 hK
        rw [hmid] at this
        exact absurd this (by simp)
      | some t1 =>
        exact ih t1 (hK.trans (checkedInGrid_mono (hmono _ _ _ hcond.2 hmid)))
    · exact ih t hK

theorem recursiveCheck_isSome (P : DrillParams) :
    ∀ fuel v s, inBounds P v → gridCard P < fuel + checkedInGrid P s →
      (recursiveCheckFromVoxel P fuel v s).isSome := by
  intro fuel
  induction fuel with
  | zero =>
    intro v s _ hlt
    exact absurd hlt (by simpa using checkedInGrid_le P s)
  | succ fuel ih =>
    intro v s hv hlt
    rw [recursiveCheck_succ]
    by_cases hchk : v ∈ s.alreadyChecked
    · simp [hchk]
    · simp only [hchk, if_false]
      set s2 : SearchState :=
        if 0 < numCornersInTool P v ∧ numCornersInTool P v < 8 ∧ P.colors v ≠ m_zeroColor then
          ⟨insert v s.alreadyChecked, s.listOfCollidingVoxels ++ [v]⟩
        else ⟨insert v s.alreadyChecked, s.listOfCollidingVoxels⟩ with hs2
      have hs2checked : s2.alreadyChecked = insert v s.alreadyChecked := by
        rw [hs2]; split <;> rfl
      have hcig : checkedInGrid P s2 = checkedInGrid P s + 1 := by
        unfold checkedInGrid
        rw [hs2checked, Finset.insert_inter_of_mem ((gridFinset_mem P v).mpr hv)]
        rw [Finset.card_insert_of_not_mem (fun hmem => hchk (Finset.mem_inter.mp hmem).1)]
      split
      · simp
      · refine runNeighbors_isSome (K := checkedInGrid P s2)
          (fun w t t1 hw hh => (recursiveCheck_goodStep P fuel w t t1 hw hh).1)
          (fun w t hw hK => ih w t hw ?_) neighborOffsets s2 (le_refl _)
        calc gridCard P < (fuel + 1) + checkedInGrid P s := hlt
        _ = fuel + checkedInGrid P s2 := by omega
        _ ≤ fuel + checkedInGrid P t := by omega

theorem findIndex_total (P : DrillParams) (seed : Voxel) (hseed : inBounds P seed) :
    ∃ l, findIndexOfAllCollidingVoxels P seed = some l := by
  have h := recursiveCheck_isSome P (gridCard P + 1) seed ⟨∅, [seed]⟩ hseed
    (by simp [checkedInGrid])
  unfold findIndexOfAllCollidingVoxels
  cases hres : recursiveCheckFromVoxel P (gridCard P + 1) seed ⟨∅, [seed]⟩ with
  | none => rw [hres] at h; exact absurd h (by simp)
  | some s => exact ⟨s.listOfCollidingVoxels, rfl⟩

theorem findIndex_spec (P : DrillParams) (seed : Voxel) (l : List Voxel)
    (hseed : inBounds P seed)
    (h : findIndexOfAllCollidingVoxels P seed = some l) :
    ∃ t, l = seed :: t ∧ t.Nodup ∧ ∀ w ∈ t, goodVoxel P w := by
  unfold findIndexOfAllCollidingVoxels at h
  cases hres : recursiveCheckFromVoxel P (gridCard P + 1) seed ⟨∅, [seed]⟩ with
  | none => rw [hres] at h; exact absurd h (by simp)
  | some s =>
    rw [hres] at h
    simp only [Option.some.injEq] at h
    obtain ⟨-, -, t, hlist, hnd, hmem⟩ := recursiveCheck_goodStep P _ seed _ s hseed hres
    exact ⟨t, by rw [← h, hlist]; rfl, hnd, fun w hw => (hmem w hw).1⟩

theorem recursiveCheck_checked_facts (P : DrillParams) (seed : Voxel) (s1 : SearchState)
    (hseed : inBounds P seed)
    (h : recursiveCheckFromVoxel P (gridCard P + 1) seed ⟨∅, [seed]⟩ = some s1) :
    s1.alreadyChecked.card ≤ gridCard P ∧ ∀ w ∈ s1.alreadyChecked, inBounds P w := by
  obtain ⟨-, hnew, -⟩ := recursiveCheck_goodStep P _ seed _ s1 hseed h
  have hall : ∀ w ∈ s1.alreadyChecked, inBounds P w := by
    intro w hw
    rcases hnew w hw with hc | hc
    · exact absurd hc (by simp)
    · exact hc
  refine ⟨?_, hall⟩
  rw [← gridFinset_card]
  exact Finset.card_le_card (fun w hw => (gridFinset_mem P w).mpr (hall w hw))

/-- Axis-aligned box over voxel indices, as a min corner and a max corner. -/
abbrev Box : Type := Voxel × Voxel

/-- Dirty region `m_volumeUpdate`, a `cCollisionAABBBox` over voxel indices.
Modelled from the spec: the AABB accumulator class lives in the chai3d
library, outside this repository; per the spec the Dirty Region is an
axis-aligned bounding box over voxel-grid indices, `setEmpty` resets it to
empty and `enclose` grows it to include an index.  `none` is the empty
region. -/
abbrev Region : Type := Option Box

/-- Empty dirty region, the result of `m_volumeUpdate.setEmpty()`. -/
def Region.empty : Region := none

/-- Effect of `m_volumeUpdate.enclose(cVector3d(i_x, i_y, i_z))`: grow the box
to include the index, componentwise. -/
def Region.enclose : Region → Voxel → Region
  | none, v => some (v, v)
  | some (mn, mx), v =>
      some ((min mn.1 v.1, min mn.2.1 v.2.1, min mn.2.2 v.2.2),
            (max mx.1 v.1, max mx.2.1 v.2.1, max mx.2.2 v.2.2))

/-- Region membership of a voxel index: componentwise between min and max. -/
def Region.containsPt : Region → Voxel → Prop
  | none, _ => False
  | some (mn, mx), v => mn ≤ v ∧ v ≤ mx

/-- Box inclusion of regions: the first region lies inside the second. -/
def Region.le : Region → Region → Prop
  | none, _ => True
  | some _, none => False
  | some (mn, mx), some (mn1, mx1) => mn1 ≤ mn ∧ mx ≤ mx1

/-- Index-wise bounding box of a list of voxel indices. -/
def boundingBox (l : List Voxel) : Region :=
  l.foldl Region.enclose Region.empty

/-- Telemetry event published by `m_drillingPub->voxelsRemoved`: the voxel
index and the color read just before removal (the simulation timestamp is an
opaque payload and is not modelled). -/
structure Event where
  voxel : Voxel
  color : Color
deriving DecidableEq

/-- State mutated by the carving while-loop of `physicsUpdate`: the texture
voxel colors, the published events, the `critialRegionFlag` and the dirty
region. -/
structure CarveState where
  colors : Voxel → Color
  events : List Event
  critFlag : Bool
  region : Region

/-- Body of one iteration of the carving drain (lines 504-536): read the
voxel color, publish the removal event, raise the critical-region flag when
the stored color is neither the bone color nor EMPTY, set the voxel color to
EMPTY and enclose the index in the dirty region. -/
def carveVoxel (c : CarveState) (v : Voxel) : CarveState :=
  let stored := c.colors v
  { colors := fun w => if w = v then m_zeroColor else c.colors w
    events := c.events ++ [⟨v, stored⟩]
    critFlag := if stored ≠ m_boneColor ∧ stored ≠ m_zeroColor then true else c.critFlag
    region := c.region.enclose v }

/-- The drain loop `while(allCollidingVoxelIndex.size() != 0)` (line 503)
takes `back()` and `pop_back()`s, so the container is consumed in reverse
order. -/
def drainAll (c : CarveState) (pending : List Voxel) : CarveState :=
  pending.reverse.foldl carveVoxel c

/-- Plugin state carried across physics and graphics ticks: the texture voxel
colors, the warning popup visibility, the dirty region `m_volumeUpdate` and
the `m_flagMarkVolumeForUpdate` flag. -/
structure TickState where
  colors : Voxel → Color
  warningShown : Bool
  region : Region
  flagMark : Bool

/-- Fixed geometry of the volume: texture sizes and the voxelCorners table. -/
structure Geometry where
  texSize : ℤ × ℤ × ℤ
  voxelCorners : Voxel → Fin 8 → Pos

/-- Per-tick inputs supplied by the external collaborators: whether the tip
cursor `isInContact` with the voxel object, the target tool cursor index
computed by checkShaftCollision, the first-contact voxel of the collision
event, the tip proxy position and the current burr radius. -/
structure TickInputs where
  inContact : Bool
  targetToolCursorIdx : ℕ
  seed : Voxel
  proxyPos : Pos
  burrRadius : ℚ

/-- Collision-query parameters assembled from the geometry, the tick inputs
and the current voxel colors. -/
def mkParams (G : Geometry) (inp : TickInputs) (colors : Voxel → Color) :
    DrillParams :=
  ⟨G.texSize, G.voxelCorners, inp.proxyPos, inp.burrRadius, colors⟩

/-- Carving-and-warning section of `physicsUpdate` (lines 486-581): when the
tip cursor is in contact with the voxel object and is the target cursor, find
all colliding voxels, drain them, show the warning popup if the
critical-region flag was raised during this drain (otherwise the popup is
left as it was), and mark the volume for update; when the tip is not in
contact or is not the target, hide the warning popup and touch nothing else.
Returns the new state and the voxelsRemoved events published this tick;
`none` occurs only on fuel exhaustion of the embedded search, which
`findIndex_total` rules out for in-bounds seeds. -/
def physicsUpdateCarve (G : Geometry) (inp : TickInputs) (st : TickState) :
    Option (TickState × List Event) :=
  if inp.inContact = true ∧ inp.targetToolCursorIdx = 0 then
    match findIndexOfAllCollidingVoxels (mkParams G inp st.colors) inp.seed with
    | none => none
    | some l =>
      let c := drainAll ⟨st.colors, [], false, st.region⟩ l
      some ({ colors := c.colors
              warningShown := if c.critFlag = true then true else st.warningShown
              region := c.region
              flagMark := true }, c.events)
  else
    some ({ st with warningShown := false }, [])

/-- Translation of `graphicsUpdate` (lines 410-422): when the volume is
marked for update, read the accumulated dirty region bounds, reset the region
to empty, clear the flag and hand the bounds to `markForPartialUpdate` (the
second component); otherwise do nothing. -/
def graphicsUpdate (st : TickState) : TickState × Region :=
  if st.flagMark = true then
    ({ st with region := Region.empty, flagMark := false }, st.region)
  else (st, Region.empty)

theorem Region.enclose_containsPt (r : Region) (v : Voxel) :
    (r.enclose v).containsPt v := by
  cases r with
  | none => simp [Region.enclose, Region.containsPt, Prod.le_def]
  | some b =>
    obtain ⟨mn, mx⟩ := b
    simp only [Region.enclose, Region.containsPt, Prod.le_def]
    constructor <;> constructor <;> try constructor
    all_goals simp [min_le_right, le_max_right, min_le_iff, le_max_iff]

theorem Region.containsPt_enclose {r : Region} {w : Voxel} (h : r.containsPt w)
    (v : Voxel) : (r.enclose v).containsPt w := by
  cases r with
  | none => exact absurd h (by simp [Region.containsPt])
  | some b =>
    obtain ⟨mn, mx⟩ := b
    simp only [Region.enclose, Region.containsPt, Prod.le_def] at h ⊢
    omega

theorem Region.le_enclose_of_containsPt {acc R : Region} {v : Voxel}
    (hle : Region.le acc R) (hv : R.containsPt v) : Region.le (acc.enclose v) R := by
  cases acc with
  | none =>
    cases R with
    | none => exact absurd hv (by simp [Region.containsPt])
    | some b =>
      obtain ⟨mn, mx⟩ := b
      simp only [Region.enclose, Region.le, Region.containsPt, Prod.le_def] at hv ⊢
      omega
  | some b0 =>
    obtain ⟨mn0, mx0⟩ := b0
    cases R with
    | none => exact absurd hle (by simp [Region.le])
    | some b =>
      obtain ⟨mn, mx⟩ := b
      simp only [Region.enclose, Region.le, Region.containsPt, Prod.le_def] at hle hv ⊢
      omega

theorem foldl_enclose_containsPt_of (l : List Voxel) :
    ∀ (r : Region) (w : Voxel), r.containsPt w →
      (l.foldl Region.enclose r).containsPt w := by
  induction l with
  | nil => intro r w h; exact h
  | cons v rest ih =>
    intro r w h
    exact ih (r.enclose v) w (Region.containsPt_enclose h v)

theorem foldl_enclose_containsPt_mem (l : List Voxel) :
    ∀ (r : Region) (v : Voxel), v ∈ l → (l.foldl Region.enclose r).containsPt v := by
  induction l with
  | nil => intro r v h; exact absurd h (by simp)
  | cons v0 rest ih =>
    intro r v h
    rcases List.mem_cons.mp h with rfl | h
    · exact foldl_enclose_containsPt_of rest (r.enclose v) v (Region.enclose_containsPt r v)
    · exact ih (r.enclose v0) v h

theorem foldl_enclose_le (l : List Voxel) :
    ∀ (acc R : Region), Region.le acc R → (∀ v ∈ l, R.containsPt v) →
      Region.le (l.foldl Region.enclose acc) R := by
  induction l with
  | nil => intro acc R h _; exact h
  | cons v rest ih =>
    intro acc R hle hall
    exact ih (acc.enclose v) R
      (Region.le_enclose_of_containsPt hle (hall v (by simp)))
      (fun w hw => hall w (by simp [hw]))

theorem boundingBox_le {l : List Voxel} {R : Region}
    (h : ∀ v ∈ l, R.containsPt v) : Region.le (boundingBox l) R :=
  foldl_enclose_le l Region.empty R (by simp [Region.le, Region.empty]) h

theorem drain_foldl_spec (l : List Voxel) : ∀ c : CarveState,
    ∃ newEvs : List Event,
      (l.foldl carveVoxel c).events = c.events ++ newEvs ∧
      newEvs.map Event.voxel = l ∧
      ((l.foldl carveVoxel c).critFlag = true ↔
        c.critFlag = true ∨
          ∃ e ∈ newEvs, e.color ≠ m_boneColor ∧ e.color ≠ m_zeroColor) ∧
      (l.foldl carveVoxel c).region = l.foldl Region.enclose c.region ∧
      (∀ v, (l.foldl carveVoxel c).colors v =
        if v ∈ l then m_zeroColor else c.colors v) := by
  induction l with
  | nil => intro c; exact ⟨[], by simp, by simp, by simp, by simp, by simp⟩
  | cons v0 rest ih =>
    intro c
    obtain ⟨restEvs, hev, hmap, hcrit, hreg, hcol⟩ := ih (carveVoxel c v0)
    refine ⟨⟨v0, c.colors v0⟩ :: restEvs, ?_, ?_, ?_, ?_, ?_⟩
    · rw [List.foldl_cons, hev]
      simp [carveVoxel]
    · simp [hmap]
    · rw [List.foldl_cons, hcrit]
      simp only [carveVoxel]
      by_cases hp : c.colors v0 ≠ m_boneColor ∧ c.colors v0 ≠ m_zeroColor
      · simp [hp]
      · simp only [if_neg hp, List.mem_cons]
        constructor
        · rintro (h | h)
          · exact Or.inl h
          · exact Or.inr (h.imp (fun e he => ⟨Or.inr he.1, he.2⟩))
        · rintro (h | ⟨e, he, hprot⟩)
          · exact Or.inl h
          · rcases he with rfl | he
            · exact absurd hprot hp
            · exact Or.inr ⟨e, he, hprot⟩
    · rw [List.foldl_cons, hreg]
      simp [carveVoxel]
    · intro v
      rw [List.foldl_cons, hcol v]
      simp only [carveVoxel, List.mem_cons]
      by_cases hv : v ∈ rest
      · simp [hv]
      · by_cases hv0 : v = v0 <;> simp [hv, hv0]

/-- Colors that are neither bone nor EMPTY: the colors of the protected
critical region. -/
def protectedColor (c : Color) : Prop := c ≠ m_boneColor ∧ c ≠ m_zeroColor

theorem drainAll_spec (pending : List Voxel) (c : CarveState) :
    ∃ newEvs : List Event,
      (drainAll c pending).events = c.events ++ newEvs ∧
      newEvs.map Event.voxel = pending.reverse ∧
      ((drainAll c pending).critFlag = true ↔
        c.critFlag = true ∨ ∃ e ∈ newEvs, protectedColor e.color) ∧
      (drainAll c pending).region = pending.reverse.foldl Region.enclose c.region ∧
      (∀ v, (drainAll c pending).colors v =
        if v ∈ pending then m_zeroColor else c.colors v) := by
  obtain ⟨newEvs, h1, h2, h3, h4, h5⟩ := drain_foldl_spec pending.reverse c
  refine ⟨newEvs, h1, h2, ?_, h4, ?_⟩
  · simp only [protectedColor, drainAll]
    exact h3
  · intro v
    simp only [drainAll]
    rw [h5 v]
    simp

/-- Epsilon margin of the shaft scan, the literal 0.00001 of line 814. -/
def shaftEps : ℚ := 1 / 100000

/-- Loop of `checkShaftCollision` (lines 809-820) on the accumulator
(m_maxError, m_targetToolCursorIdx): cursor i with error e replaces the
target exactly when `abs(currError) > abs(maxError + 0.00001)`. -/
def shaftLoop : ℕ → List ℚ → ℚ × ℕ → ℚ × ℕ
  | _, [], acc => acc
  | i, e :: rest, acc =>
      shaftLoop (i + 1) rest (if |e| > |acc.1 + shaftEps| then (e, i) else acc)

/-- Translation of `checkShaftCollision` (lines 804-821) on the list of
per-cursor proxy/goal distances `cDistance(proxy_i, goal_i)`: scan every
cursor in index order starting from maxError = 0 and target index 0; returns
the final (m_maxError, m_targetToolCursorIdx). -/
def checkShaftCollision (errors : List ℚ) : ℚ × ℕ :=
  shaftLoop 0 errors (0, 0)

/-- Drill-size state: `m_drillSizeIdx`, the tip tool cursor radius, the burr
mesh radius and `m_currDrillSize` in millimeters. -/
structure DrillSizeState where
  drillSizeIdx : ℕ
  tipRadius : ℚ
  burrRadius : ℚ
  currDrillSize : ℕ
deriving DecidableEq

/-- Translation of `changeDrillSize` (lines 883-921): increment the index,
wrap to 0 above 2, then in each switch case set the tip tool cursor radius
and the burr mesh radius to the same literal and update the current size. -/
def changeDrillSize (s : DrillSizeState) : DrillSizeState :=
  let idx := if s.drillSizeIdx + 1 > 2 then 0 else s.drillSizeIdx + 1
  match idx with
  | 0 => ⟨0, 0.0403, 0.0403, 2⟩
  | 1 => ⟨1, 0.0805, 0.0805, 4⟩
  | 2 => ⟨2, 0.1208, 0.1208, 6⟩
  | n + 3 => ⟨n + 3, s.tipRadius, s.burrRadius, s.currDrillSize⟩

/-- Initial drill-size state.  Modelled from the spec: the initializer of
`m_drillSizeIdx` lives in the plugin header, outside src/; the spec and the
init code (burr mesh and tip cursor both created with radius 0.043, "2mm by
default", lines 114-115 and 737) fix the initial size at 2 mm with index 0. -/
def initDrillSizeState : DrillSizeState := ⟨0, 0.043, 0.043, 2⟩

/-- Per-axis inputs of the voxel-size computation in `init` (lines 215-226):
the voxel object corners, texture coordinates and the texture size along one
axis. -/
structure AxisParams where
  minCorner : ℚ
  maxCorner : ℚ
  minTextureCoord : ℚ
  maxTextureCoord : ℚ
  texSize : ℕ

/-- Extent span `fabs(m_maxCorner(i) - m_minCorner(i))`. -/
def extentSpan (a : AxisParams) : ℚ := |a.maxCorner - a.minCorner|

/-- Divisor of the else-branch division:
`(m_maxTextureCoord(i) - m_minTextureCoord(i)) * texSize[i]`. -/
def texDivisor (a : AxisParams) : ℚ :=
  (a.maxTextureCoord - a.minTextureCoord) * (a.texSize : ℚ)

/-- Translation of the per-axis voxel-size computation (lines 215-226):
whole-extent fallback when the texture coordinates coincide, otherwise
`cMin(s, s / divisor)`. -/
def computeVoxelSize (a : AxisParams) : ℚ :=
  if a.maxTextureCoord = a.minTextureCoord then extentSpan a
  else min (extentSpan a) (extentSpan a / texDivisor a)

/-- Predicate that the else-branch division of lines 223-224 is evaluated
for this axis. -/
def divisionEvaluated (a : AxisParams) : Prop :=
  a.maxTextureCoord ≠ a.minTextureCoord

/-- Handler of GLFW_KEY_N (lines 989-992), which calls
`m_volumeObject->reset()`.  Modelled from the spec: `afVolume::reset` lives
in the AMBF framework outside this repository; per the spec it restores every
voxel to its original color.  It is a member of the volume object and leaves
the plugin's dirty region `m_volumeUpdate`, its warning state and its flags
untouched. -/
def keyboardResetVolume (original : Voxel → Color) (st : TickState) : TickState :=
  { st with colors := original }

/-- Translation of `afVolmetricDrillingPlugin::reset` (lines 1227-1230): it
only refreshes the stored drill transform `T_d` from the rigid body; the
voxel colors, the dirty region and the flags are untouched (`T_d` itself is
outside `TickState`, so on this state the function is the identity). -/
def pluginReset (st : TickState) : TickState := st

/-- Example protected color: neither the bone color nor EMPTY. -/
def exampleProtColor : Color := ⟨100, 100, 100, 255⟩

/-- Example geometry: a 1x1x1 texture whose single voxel has corner 0 at the
origin and the remaining 7 corners far away at (9,9,9). -/
def exampleGeometry : Geometry where
  texSize := (1, 1, 1)
  voxelCorners := fun _ cor => if cor = 0 then (0, 0, 0) else (9, 9, 9)

/-- Example tick inputs: tip in contact and selected as target, first-contact
voxel (0,0,0), tip proxy at the origin, burr radius 2. -/
def exampleInputs : TickInputs := ⟨true, 0, (0, 0, 0), (0, 0, 0), 2⟩

theorem runNeighbors_unit (P : DrillParams) (hts : P.texSize = (1, 1, 1))
    (step : Voxel → SearchState → Option SearchState) (s : SearchState) :
    runNeighbors P step (0, 0, 0) neighborOffsets s = some s := by
  norm_num [neighborOffsets, runNeighbors, inBounds, hts, Prod.ext_iff]

theorem exampleCorners1 (colors : Voxel → Color) :
    numCornersInTool (mkParams exampleGeometry exampleInputs colors) (0, 0, 0) = 1 := by
  unfold numCornersInTool mkParams exampleGeometry exampleInputs
  rw [show (Finset.univ.filter fun cor : Fin 8 =>
      lengthsq (vsub (0,0,0) (if cor = 0 then ((0:ℚ), (0:ℚ), (0:ℚ)) else (9, 9, 9))) < (2:ℚ) ^ 2)
      = {0} from ?_]
  · rfl
  · ext cor
    by_cases h : cor = 0
    · norm_num [h, lengthsq, vsub]
    · norm_num [h, lengthsq, vsub]

theorem exampleFind1 (colors : Voxel → Color) (hc : colors (0,0,0) ≠ m_zeroColor) :
    findIndexOfAllCollidingVoxels (mkParams exampleGeometry exampleInputs colors) (0, 0, 0) =
      some [(0, 0, 0), (0, 0, 0)] := by
  unfold findIndexOfAllCollidingVoxels
  have hg : gridCard (mkParams exampleGeometry exampleInputs colors) + 1 = 1 + 1 := by
    norm_num [gridCard, mkParams, exampleGeometry]
  rw [hg, recursiveCheck_succ]
  simp only [Finset.not_mem_empty, if_false, exampleCorners1]
  have h1 : (0 < 1 ∧ 1 < 8 ∧ (mkParams exampleGeometry exampleInputs colors).colors (0, 0, 0) ≠ m_zeroColor) = True :=
    eq_true ⟨one_pos, by norm_num, hc⟩
  have h2 : ∀ S : Finset Voxel, (¬(0 < 1 ∧ 1 < 8) ∧ S.card ≠ 1) = False :=
    fun S => eq_false (by norm_num)
  simp only [h1, h2, if_true, if_false]
  rw [runNeighbors_unit _ (show (mkParams exampleGeometry exampleInputs colors).texSize = (1,1,1) from rfl)]
  rfl

/-- Example tick inputs with zero burr radius: every corner-in-sphere count
is 0. -/
def zeroRadiusInputs : TickInputs := ⟨true, 0, (0, 0, 0), (0, 0, 0), 0⟩

/-- Collision-query parameters with zero burr radius on the 1x1x1 grid, all
voxels bone colored. -/
def exampleParams0 : DrillParams := mkParams exampleGeometry zeroRadiusInputs (fun _ => m_boneColor)

theorem exampleCorners0 : numCornersInTool exampleParams0 (0, 0, 0) = 0 := by
  unfold numCornersInTool exampleParams0 mkParams exampleGeometry zeroRadiusInputs
  rw [Finset.card_eq_zero, Finset.filter_eq_empty_iff]
  intro cor _
  by_cases h : cor = 0
  · norm_num [h, lengthsq, vsub]
  · norm_num [h, lengthsq, vsub]

theorem exampleFind0 :
    findIndexOfAllCollidingVoxels exampleParams0 (0, 0, 0) = some [(0, 0, 0)] := by
  unfold findIndexOfAllCollidingVoxels
  have hg : gridCard exampleParams0 + 1 = 1 + 1 := by
    norm_num [gridCard, exampleParams0, mkParams, exampleGeometry]
  rw [hg, recursiveCheck_succ]
  simp only [Finset.not_mem_empty, if_false, exampleCorners0]
  have h1 : (0 < 0 ∧ 0 < 8 ∧ exampleParams0.colors (0, 0, 0) ≠ m_zeroColor) = False :=
    eq_false (fun h => absurd h.1 (lt_irrefl 0))
  have h2 : ((1 : ℕ) ≠ 1) = False := eq_false (fun h => h rfl)
  simp only [h1, if_false, Finset.card_singleton, h2, and_false]
  rw [runNeighbors_unit _ (show exampleParams0.texSize = (1, 1, 1) from rfl)]
  rfl

/-- Example initial plugin state: every voxel carries the protected color, no
warning shown, empty dirty region, volume not marked for update. -/
def exampleState0 : TickState := ⟨fun _ => exampleProtColor, false, Region.empty, false⟩

/-- Plugin state after the first example tick: voxel (0,0,0) is EMPTY, the
warning is shown, the dirty region encloses (0,0,0) and the volume is marked
for update. -/
def exampleState1 : TickState :=
  ⟨fun v => if v = (0, 0, 0) then m_zeroColor else exampleProtColor, true,
    some ((0, 0, 0), (0, 0, 0)), true⟩

theorem exampleTick1 :
    physicsUpdateCarve exampleGeometry exampleInputs exampleState0 =
      some (exampleState1, [⟨(0, 0, 0), exampleProtColor⟩, ⟨(0, 0, 0), m_zeroColor⟩]) := by
  unfold physicsUpdateCarve
  rw [if_pos (show exampleInputs.inContact = true ∧ exampleInputs.targetToolCursorIdx = 0 from ⟨rfl, rfl⟩)]
  rw [show exampleInputs.seed = (0, 0, 0) from rfl]
  rw [exampleFind1 exampleState0.colors (by decide)]
  unfold drainAll carveVoxel
  simp only [List.reverse_cons, List.reverse_nil, List.nil_append, List.cons_append,
    List.foldl_cons, List.foldl_nil, List.append_nil]
  norm_num [exampleState0, exampleState1, Region.empty, Region.enclose, exampleProtColor, m_zeroColor, m_boneColor, Event.mk.injEq]
  funext v
  by_cases h : v = 0 <;> simp [h]

theorem exampleFind1z (colors : Voxel → Color) (hc : colors (0, 0, 0) = m_zeroColor) :
    findIndexOfAllCollidingVoxels (mkParams exampleGeometry exampleInputs colors) (0, 0, 0) =
      some [(0, 0, 0)] := by
  unfold findIndexOfAllCollidingVoxels
  have hg : gridCard (mkParams exampleGeometry exampleInputs colors) + 1 = 1 + 1 := by
    norm_num [gridCard, mkParams, exampleGeometry]
  rw [hg, recursiveCheck_succ]
  simp only [Finset.not_mem_empty, if_false, exampleCorners1]
  have h1 : (0 < 1 ∧ 1 < 8 ∧ (mkParams exampleGeometry exampleInputs colors).colors (0, 0, 0) ≠ m_zeroColor) = False :=
    eq_false (fun h => h.2.2 hc)
  have h2 : ∀ S : Finset Voxel, (¬(0 < 1 ∧ 1 < 8) ∧ S.card ≠ 1) = False :=
    fun S => eq_false (by norm_num)
  simp only [h1, h2, if_false]
  rw [runNeighbors_unit _ (show (mkParams exampleGeometry exampleInputs colors).texSize = (1, 1, 1) from rfl)]

theorem exampleTick2 :
    physicsUpdateCarve exampleGeometry exampleInputs exampleState1 =
      some (exampleState1, [⟨(0, 0, 0), m_zeroColor⟩]) := by
  unfold physicsUpdateCarve
  rw [if_pos (show exampleInputs.inContact = true ∧ exampleInputs.targetToolCursorIdx = 0 from ⟨rfl, rfl⟩)]
  rw [show exampleInputs.seed = (0, 0, 0) from rfl]
  rw [exampleFind1z exampleState1.colors (by simp [exampleState1])]
  unfold drainAll carveVoxel
  simp only [List.reverse_cons, List.reverse_nil, List.nil_append, List.cons_append,
    List.foldl_cons, List.foldl_nil, List.append_nil]
  norm_num [exampleState1, Region.enclose, exampleProtColor, m_zeroColor, m_boneColor, Event.mk.injEq]
  funext v
  by_cases h : v = 0 <;> simp [h]

theorem shaftLoop_spec (l : List ℚ) : ∀ (i : ℕ) (acc : ℚ × ℕ), 0 ≤ acc.1 →
    (∀ e ∈ l, 0 ≤ e) →
    acc.1 ≤ (shaftLoop i l acc).1 ∧
    (shaftLoop i l acc = acc ∨
      (∃ k, l.get? k = some (shaftLoop i l acc).1 ∧ (shaftLoop i l acc).2 = i + k ∧
        shaftEps < (shaftLoop i l acc).1)) ∧
    (∀ e ∈ l, e ≤ (shaftLoop i l acc).1 + shaftEps) := by
  induction l with
  | nil => intro i acc _ _; exact ⟨le_refl _, Or.inl rfl, by simp⟩
  | cons e rest ih =>
    intro i acc hacc hnn
    have heps : (0 : ℚ) < shaftEps := by norm_num [shaftEps]
    have he : 0 ≤ e := hnn e (by simp)
    have hr : ∀ x ∈ rest, 0 ≤ x := fun x hx => hnn x (by simp [hx])
    by_cases hfire : |e| > |acc.1 + shaftEps|
    · have hstep : shaftLoop i (e :: rest) acc = shaftLoop (i + 1) rest (e, i) := by
        simp [shaftLoop, hfire]
      obtain ⟨ih1, ih2, ih3⟩ := ih (i + 1) (e, i) he hr
      have habs : |e| = e := abs_of_nonneg he
      have habs2 : |acc.1 + shaftEps| = acc.1 + shaftEps :=
        abs_of_nonneg (by linarith)
      have hlt : acc.1 + shaftEps < e := by rw [← habs2, ← habs]; exact hfire
      rw [hstep]
      refine ⟨by linarith [ih1], ?_, ?_⟩
      · rcases ih2 with h | ⟨k, hk1, hk2, hk3⟩
        · refine Or.inr ⟨0, ?_, ?_, ?_⟩
          · rw [h]; rfl
          · rw [h]; simp
          · rw [h]; simpa using by linarith
        · exact Or.inr ⟨k + 1, by simpa using hk1, by omega, hk3⟩
      · intro x hx
        rcases List.mem_cons.mp hx with rfl | hx
        · linarith [ih1]
        · exact ih3 x hx
    · have hstep : shaftLoop i (e :: rest) acc = shaftLoop (i + 1) rest acc := by
        simp [shaftLoop, hfire]
      obtain ⟨ih1, ih2, ih3⟩ := ih (i + 1) acc hacc hr
      have habs2 : |acc.1 + shaftEps| = acc.1 + shaftEps :=
        abs_of_nonneg (by linarith)
      have hle : e ≤ acc.1 + shaftEps := by
        have h1 : e ≤ |e| := le_abs_self e
        have h2 : |e| ≤ acc.1 + shaftEps := by rw [← habs2]; exact not_lt.mp hfire
        linarith
      rw [hstep]
      refine ⟨ih1, ?_, ?_⟩
      · rcases ih2 with h | ⟨k, hk1, hk2, hk3⟩
        · exact Or.inl h
        · exact Or.inr ⟨k + 1, by simpa using hk1, by omega, hk3⟩
      · intro x hx
        rcases List.mem_cons.mp hx with rfl | hx
        · linarith [ih1]
        · exact ih3 x hx

theorem shaftCexEval :
    checkShaftCollision [0, 1/100000, 15/1000000] = (15/1000000, 2) := by
  norm_num [checkShaftCollision, shaftLoop, shaftEps, abs_of_nonneg]

theorem runNeighbors_list_prefix {P : DrillParams}
    {step : Voxel → SearchState → Option SearchState} {v : Voxel}
    (hstep : ∀ w t t1, step w t = some t1 →
      ∃ u, t1.listOfCollidingVoxels = t.listOfCollidingVoxels ++ u) :
    ∀ offs s s1, runNeighbors P step v offs s = some s1 →
      ∃ u, s1.listOfCollidingVoxels = s.listOfCollidingVoxels ++ u := by
  intro offs
  induction offs with
  | nil =>
    intro s s1 h
    simp only [runNeighbors, Option.some.injEq] at h
    exact ⟨[], by rw [← h]; simp⟩
  | cons off rest ih =>
    intro s s1 h
    simp only [runNeighbors] at h
    split at h
    · cases hmid : step (v + off) s with
      | none => rw [hmid] at h; exact absurd h (by simp)
      | some smid =>
        rw [hmid] at h
        obtain ⟨u1, hu1⟩ := hstep _ _ _ hmid
        obtain ⟨u2, hu2⟩ := ih _ _ h
        exact ⟨u1 ++ u2, by rw [hu2, hu1, List.append_assoc]⟩
    · exact ih _ _ h

theorem recursiveCheck_list_prefix (P : DrillParams) :
    ∀ fuel v s s1, recursiveCheckFromVoxel P fuel v s = some s1 →
      ∃ u, s1.listOfCollidingVoxels = s.listOfCollidingVoxels ++ u := by
  intro fuel
  induction fuel with
  | zero => intro v s s1 h; exact absurd h (by simp [recursiveCheckFromVoxel])
  | succ fuel ih =>
    intro v s s1 h
    rw [recursiveCheck_succ] at h
    by_cases hchk : v ∈ s.alreadyChecked
    · simp only [hchk, if_true, Option.some.injEq] at h
      exact ⟨[], by rw [← h]; simp⟩
    · simp only [hchk, if_false] at h
      set s2 : SearchState :=
        if 0 < numCornersInTool P v ∧ numCornersInTool P v < 8 ∧ P.colors v ≠ m_zeroColor then
          ⟨insert v s.alreadyChecked, s.listOfCollidingVoxels ++ [v]⟩
        else ⟨insert v s.alreadyChecked, s.listOfCollidingVoxels⟩ with hs2
      have hpre : ∃ u0, s2.listOfCollidingVoxels = s.listOfCollidingVoxels ++ u0 := by
        rw [hs2]
        split
        · exact ⟨[v], rfl⟩
        · exact ⟨[], by simp⟩
      obtain ⟨u0, hu0⟩ := hpre
      split at h
      · simp only [Option.some.injEq] at h
        exact ⟨u0, by rw [← h, hu0]⟩
      · obtain ⟨u1, hu1⟩ := runNeighbors_list_prefix (fun w t t1 ht => ih w t t1 ht)
          neighborOffsets s2 s1 h
        exact ⟨u0 ++ u1, by rw [hu1, hu0, List.append_assoc]⟩

theorem findIndex_head (P : DrillParams) (seed : Voxel) (l : List Voxel)
    (h : findIndexOfAllCollidingVoxels P seed = some l) :
    ∃ t, l = seed :: t := by
  unfold findIndexOfAllCollidingVoxels at h
  cases hres : recursiveCheckFromVoxel P (gridCard P + 1) seed ⟨∅, [seed]⟩ with
  | none => rw [hres] at h; exact absurd h (by simp)
  | some s =>
    rw [hres] at h
    simp only [Option.some.injEq] at h
    obtain ⟨u, hu⟩ := recursiveCheck_list_prefix P _ seed _ s hres
    exact ⟨u, by rw [← h, hu]; rfl⟩

/-- C1 counterexample: the claim that every voxel index in the returned
contact list has a corner-in-sphere count strictly between 0 and 8 and a
non-EMPTY color is false as stated: with zero burr radius every count is 0,
yet the seed voxel still appears in the returned list. -/
theorem C1_counterexample :
    ¬ (∀ l v, findIndexOfAllCollidingVoxels exampleParams0 (0, 0, 0) = some l → v ∈ l →
        (0 < numCornersInTool exampleParams0 v ∧ numCornersInTool exampleParams0 v < 8) ∧
          exampleParams0.colors v ≠ m_zeroColor) := by
  intro h
  have hcount := (h [(0, 0, 0)] (0, 0, 0) exampleFind0 (by simp)).1.1
  rw [exampleCorners0] at hcount
  exact absurd hcount (lt_irrefl 0)

/-- C1 amended: every voxel of the returned contact list, other than the
unconditionally pushed seed at its head, has a corner-in-sphere count
strictly between 0 and 8 and a color that is not EMPTY; voxels with count 0
or 8, or EMPTY color, never appear in the recursively collected tail. -/
theorem C1_amended_tail_good (P : DrillParams) (seed : Voxel) (l : List Voxel)
    (hseed : inBounds P seed)
    (h : findIndexOfAllCollidingVoxels P seed = some l) :
    ∃ t, l = seed :: t ∧ ∀ v ∈ t,
      (0 < numCornersInTool P v ∧ numCornersInTool P v < 8) ∧
        P.colors v ≠ m_zeroColor := by
  obtain ⟨t, h1, h2, h3⟩ := findIndex_spec P seed l hseed h
  exact ⟨t, h1, fun v hv => h3 v hv⟩

/-- Witness for C1 amended at the count-1 example. -/
theorem C1_amended_witness :
    inBounds (mkParams exampleGeometry exampleInputs exampleState0.colors) (0, 0, 0) ∧
    ∃ t, [((0, 0, 0) : Voxel), (0, 0, 0)] = ((0, 0, 0) : Voxel) :: t ∧ ∀ v ∈ t,
      (0 < numCornersInTool (mkParams exampleGeometry exampleInputs exampleState0.colors) v ∧
        numCornersInTool (mkParams exampleGeometry exampleInputs exampleState0.colors) v < 8) ∧
        (mkParams exampleGeometry exampleInputs exampleState0.colors).colors v ≠ m_zeroColor :=
  ⟨by decide, C1_amended_tail_good _ (0, 0, 0) _ (by decide) (exampleFind1 _ (by decide))⟩

/-- C10: the first element of the returned contact list is always the
solver-reported seed, pushed unconditionally before any corner or color test;
the list is therefore non-empty and contains the seed, even when the seed's
corner-in-sphere count is 0 (zero-radius example) or its color is already
EMPTY, and the seed appears a second time when the recursive check also
classifies it as colliding and non-EMPTY. -/
theorem C10_seed_pushed_unconditionally :
    (∀ (P : DrillParams) (seed : Voxel) (l : List Voxel),
      findIndexOfAllCollidingVoxels P seed = some l → ∃ t, l = seed :: t) ∧
    (∀ (P : DrillParams) (seed : Voxel), inBounds P seed →
      ∃ l, findIndexOfAllCollidingVoxels P seed = some l ∧ l ≠ [] ∧ seed ∈ l) ∧
    (findIndexOfAllCollidingVoxels exampleParams0 (0, 0, 0) = some [(0, 0, 0)] ∧
      numCornersInTool exampleParams0 (0, 0, 0) = 0) ∧
    (findIndexOfAllCollidingVoxels (mkParams exampleGeometry exampleInputs exampleState1.colors) (0, 0, 0) =
        some [(0, 0, 0)] ∧
      exampleState1.colors (0, 0, 0) = m_zeroColor) ∧
    findIndexOfAllCollidingVoxels (mkParams exampleGeometry exampleInputs exampleState0.colors) (0, 0, 0) =
      some [(0, 0, 0), (0, 0, 0)] := by
  refine ⟨findIndex_head, ?_, ⟨exampleFind0, exampleCorners0⟩,
    ⟨exampleFind1z _ (by simp [exampleState1]), by simp [exampleState1]⟩,
    exampleFind1 _ (by decide)⟩
  intro P seed hseed
  obtain ⟨l, hl⟩ := findIndex_total P seed hseed
  obtain ⟨t, ht⟩ := findIndex_head P seed l hl
  exact ⟨l, hl, by simp [ht], by simp [ht]⟩

/-- Witness for C10 at the zero-radius example. -/
theorem C10_witness :
    ∃ t, [((0, 0, 0) : Voxel)] = ((0, 0, 0) : Voxel) :: t :=
  C10_seed_pushed_unconditionally.1 exampleParams0 (0, 0, 0) [(0, 0, 0)] exampleFind0

/-- C3: an index already in the alreadyChecked set returns immediately and is
never re-tested; from any in-bounds seed the search completes (terminates)
with an alreadyChecked set of at most Dx*Dy*Dz entries, every one of which is
within bounds along each axis. -/
theorem C3_termination_visited (P : DrillParams) (seed : Voxel)
    (hseed : inBounds P seed) :
    (∀ fuel v s, v ∈ s.alreadyChecked →
      recursiveCheckFromVoxel P (fuel + 1) v s = some s) ∧
    ∃ s1, recursiveCheckFromVoxel P (gridCard P + 1) seed ⟨∅, [seed]⟩ = some s1 ∧
      s1.alreadyChecked.card ≤ gridCard P ∧
      ∀ w ∈ s1.alreadyChecked, inBounds P w := by
  constructor
  · intro fuel v s hv
    rw [recursiveCheck_succ]
    simp [hv]
  · have hsome := recursiveCheck_isSome P (gridCard P + 1) seed ⟨∅, [seed]⟩ hseed
      (by simp [checkedInGrid])
    cases hres : recursiveCheckFromVoxel P (gridCard P + 1) seed ⟨∅, [seed]⟩ with
    | none => rw [hres] at hsome; exact absurd hsome (by simp)
    | some s1 =>
      obtain ⟨hcard, hbounds⟩ := recursiveCheck_checked_facts P seed s1 hseed hres
      exact ⟨s1, rfl, hcard, hbounds⟩

/-- Witness for C3 at the zero-radius example. -/
theorem C3_witness :
    inBounds exampleParams0 (0, 0, 0) ∧
    ((∀ fuel v s, v ∈ s.alreadyChecked →
      recursiveCheckFromVoxel exampleParams0 (fuel + 1) v s = some s) ∧
    ∃ s1, recursiveCheckFromVoxel exampleParams0 (gridCard exampleParams0 + 1) (0, 0, 0) ⟨∅, [(0, 0, 0)]⟩ = some s1 ∧
      s1.alreadyChecked.card ≤ gridCard exampleParams0 ∧
      ∀ w ∈ s1.alreadyChecked, inBounds exampleParams0 w) :=
  ⟨by decide, C3_termination_visited exampleParams0 (0, 0, 0) (by decide)⟩

theorem nodup_count_le_one {α : Type} [BEq α] [LawfulBEq α] {l : List α}
    (h : l.Nodup) (a : α) : l.count a ≤ 1 := by
  induction l with
  | nil => simp
  | cons b rest ih =>
    rcases List.nodup_cons.mp h with ⟨hb, hrest⟩
    rw [List.count_cons]
    by_cases hab : a = b
    · subst hab
      have hz : rest.count a = 0 := List.count_eq_zero.mpr hb
      simp [hz]
    · have hbeq : (b == a) = false := beq_eq_false_iff_ne.mpr (fun hh => hab hh.symm)
      simp [hbeq, ih hrest]

/-- C2 counterexample: carving is not idempotent through the telemetry
publisher: in the first tick the seed voxel (0,0,0) is reported twice (it is
pushed unconditionally and again by the recursive check), and in the next
tick, although its color is already EMPTY, it still appears in the contact
list and its removal is reported once more. -/
theorem C2_counterexample :
    physicsUpdateCarve exampleGeometry exampleInputs exampleState0 =
      some (exampleState1, [⟨(0, 0, 0), exampleProtColor⟩, ⟨(0, 0, 0), m_zeroColor⟩]) ∧
    exampleState1.colors (0, 0, 0) = m_zeroColor ∧
    physicsUpdateCarve exampleGeometry exampleInputs exampleState1 =
      some (exampleState1, [⟨(0, 0, 0), m_zeroColor⟩]) :=
  ⟨exampleTick1, by simp [exampleState1], exampleTick2⟩

/-- C2 amended: within one tick the telemetry events are exactly one per
contact-list entry (the seed followed by the recursively collected tail, in
reverse drain order); the tail is duplicate-free and contains no voxel whose
color is already EMPTY, so every voxel other than the seed is reported at
most once per tick, and after the drain every reported voxel is EMPTY; only
the unconditionally pushed seed slot can re-report a removed voxel. -/
theorem C2_amended_carving (G : Geometry) (inp : TickInputs) (st : TickState)
    (st1 : TickState) (evs : List Event)
    (hcontact : inp.inContact = true ∧ inp.targetToolCursorIdx = 0)
    (hseed : inBounds (mkParams G inp st.colors) inp.seed)
    (h : physicsUpdateCarve G inp st = some (st1, evs)) :
    ∃ t : List Voxel,
      evs.map Event.voxel = (inp.seed :: t).reverse ∧
      t.Nodup ∧
      (∀ v ∈ t, st.colors v ≠ m_zeroColor) ∧
      (∀ v : Voxel, v ≠ inp.seed → (evs.map Event.voxel).count v ≤ 1) ∧
      (∀ e ∈ evs, st1.colors e.voxel = m_zeroColor) := by
  unfold physicsUpdateCarve at h
  rw [if_pos hcontact] at h
  cases hfind : findIndexOfAllCollidingVoxels (mkParams G inp st.colors) inp.seed with
  | none => rw [hfind] at h; exact absurd h (by simp)
  | some l =>
    rw [hfind] at h
    simp only [Option.some.injEq, Prod.mk.injEq] at h
    obtain ⟨hst1, hevs⟩ := h
    obtain ⟨t, hlist, hnd, hgood⟩ := findIndex_spec _ _ _ hseed hfind
    obtain ⟨newEvs, hev, hmap, hcrit, hreg, hcol⟩ :=
      drainAll_spec l ⟨st.colors, [], false, st.region⟩
    have hevs2 : evs = newEvs := by rw [← hevs, hev]; simp
    refine ⟨t, ?_, hnd, ?_, ?_, ?_⟩
    · rw [hevs2, hmap, hlist]
    · intro v hv
      exact ((hgood v hv).2 : _)
    · intro v hvne
      rw [hevs2, hmap, List.count_reverse, hlist]
      have hbeq : (inp.seed == v) = false := beq_eq_false_iff_ne.mpr (fun hh => hvne hh.symm)
      rw [List.count_cons]
      simp only [hbeq, if_false, add_zero]
      exact nodup_count_le_one hnd v
    · intro e he
      have hvm : e.voxel ∈ evs.map Event.voxel := List.mem_map_of_mem Event.voxel he
      rw [hevs2, hmap] at hvm
      have hvl : e.voxel ∈ l := List.mem_reverse.mp hvm
      rw [← hst1]
      simp only
      rw [hcol e.voxel]
      simp [hvl]

/-- Witness for C2 amended at the first example tick. -/
theorem C2_amended_witness :
    (exampleInputs.inContact = true ∧ exampleInputs.targetToolCursorIdx = 0) ∧
    inBounds (mkParams exampleGeometry exampleInputs exampleState0.colors) exampleInputs.seed ∧
    ∃ t : List Voxel,
      ([⟨(0, 0, 0), exampleProtColor⟩, ⟨(0, 0, 0), m_zeroColor⟩] : List Event).map Event.voxel =
        (exampleInputs.seed :: t).reverse ∧
      t.Nodup ∧
      (∀ v ∈ t, exampleState0.colors v ≠ m_zeroColor) ∧
      (∀ v : Voxel, v ≠ exampleInputs.seed →
        (([⟨(0, 0, 0), exampleProtColor⟩, ⟨(0, 0, 0), m_zeroColor⟩] : List Event).map Event.voxel).count v ≤ 1) ∧
      (∀ e ∈ ([⟨(0, 0, 0), exampleProtColor⟩, ⟨(0, 0, 0), m_zeroColor⟩] : List Event),
        exampleState1.colors e.voxel = m_zeroColor) :=
  ⟨⟨rfl, rfl⟩, by decide,
    C2_amended_carving exampleGeometry exampleInputs exampleState0 exampleState1 _
      ⟨rfl, rfl⟩ (by decide) exampleTick1⟩

/-- C4 counterexample: the critical-region warning is not a per-tick level
signal: tick 1 drains a protected voxel and raises the warning; tick 2 is in
contact, drains only the already-EMPTY voxel (no protected color), yet the
warning stays shown instead of being lowered. -/
theorem C4_counterexample :
    physicsUpdateCarve exampleGeometry exampleInputs exampleState0 =
      some (exampleState1, [⟨(0, 0, 0), exampleProtColor⟩, ⟨(0, 0, 0), m_zeroColor⟩]) ∧
    protectedColor exampleProtColor ∧
    physicsUpdateCarve exampleGeometry exampleInputs exampleState1 =
      some (exampleState1, [⟨(0, 0, 0), m_zeroColor⟩]) ∧
    ¬ protectedColor m_zeroColor ∧
    exampleState1.warningShown = true :=
  ⟨exampleTick1, by simp [protectedColor, exampleProtColor, m_boneColor, m_zeroColor],
    exampleTick2, by simp [protectedColor], rfl⟩

/-- C4 amended: the warning is hidden on a tick exactly when the tip is not
in contact or is not the target cursor; on a carving tick the warning is
shown if some drained voxel had a protected color, and otherwise it retains
its previous state (it is not lowered while carving continues in non-critical
material). -/
theorem C4_amended_warning (G : Geometry) (inp : TickInputs) (st : TickState)
    (st1 : TickState) (evs : List Event)
    (h : physicsUpdateCarve G inp st = some (st1, evs)) :
    (¬(inp.inContact = true ∧ inp.targetToolCursorIdx = 0) →
      st1.warningShown = false ∧ evs = []) ∧
    ((inp.inContact = true ∧ inp.targetToolCursorIdx = 0) →
      (st1.warningShown = true ↔
        (∃ e ∈ evs, protectedColor e.color) ∨ st.warningShown = true)) := by
  unfold physicsUpdateCarve at h
  by_cases hc : inp.inContact = true ∧ inp.targetToolCursorIdx = 0
  · rw [if_pos hc] at h
    refine ⟨fun hn => absurd hc hn, fun _ => ?_⟩
    cases hfind : findIndexOfAllCollidingVoxels (mkParams G inp st.colors) inp.seed with
    | none => rw [hfind] at h; exact absurd h (by simp)
    | some l =>
      rw [hfind] at h
      simp only [Option.some.injEq, Prod.mk.injEq] at h
      obtain ⟨hst1, hevs⟩ := h
      obtain ⟨newEvs, hev, hmap, hcrit, hreg, hcol⟩ :=
        drainAll_spec l ⟨st.colors, [], false, st.region⟩
      have hevs2 : evs = newEvs := by rw [← hevs, hev]; simp
      have hwarn : st1.warningShown =
          if (drainAll ⟨st.colors, [], false, st.region⟩ l).critFlag = true then true
          else st.warningShown := by rw [← hst1]
      rw [hwarn, hevs2]
      by_cases hcf : (drainAll ⟨st.colors, [], false, st.region⟩ l).critFlag = true
      · simp only [hcf, if_true, true_iff]
        rcases hcrit.mp hcf with h | h
        · exact absurd h (by simp)
        · exact Or.inl h
      · simp only [hcf, if_false]
        constructor
        · intro hw
          exact Or.inr hw
        · rintro (hp | hw)
          · exact absurd (hcrit.mpr (Or.inr hp)) hcf
          · exact hw
  · rw [if_neg hc] at h
    simp only [Option.some.injEq, Prod.mk.injEq] at h
    exact ⟨fun _ => ⟨by rw [← h.1], h.2.symm⟩, fun hcc => absurd hcc hc⟩

/-- Witness for C4 amended at the second example tick. -/
theorem C4_amended_witness :
    (¬(exampleInputs.inContact = true ∧ exampleInputs.targetToolCursorIdx = 0) →
      exampleState1.warningShown = false ∧ ([⟨(0, 0, 0), m_zeroColor⟩] : List Event) = []) ∧
    ((exampleInputs.inContact = true ∧ exampleInputs.targetToolCursorIdx = 0) →
      (exampleState1.warningShown = true ↔
        (∃ e ∈ ([⟨(0, 0, 0), m_zeroColor⟩] : List Event), protectedColor e.color) ∨
          exampleState1.warningShown = true)) :=
  C4_amended_warning exampleGeometry exampleInputs exampleState1 exampleState1 _ exampleTick2

/-- C5 counterexample: target selection compares against the running maximum
plus epsilon, not against every lower-indexed error: with errors
[0, 1/100000, 15/1000000] the scan selects index 2 although its error does
not exceed the index-1 error by more than the epsilon margin, so a tie within
epsilon between indices 1 and 2 does not resolve to the lower index. -/
theorem C5_counterexample :
    (checkShaftCollision [0, 1/100000, 15/1000000]).2 = 2 ∧
    ¬ ((15/1000000 : ℚ) > 1/100000 + shaftEps) :=
  ⟨by rw [shaftCexEval], by norm_num [shaftEps]⟩

/-- C5 amended: the scan is a pure function of the error list with index 0 as
the default; the reported maximum is the selected cursor's error (or the
initial 0 with target 0), no error exceeds the reported maximum by more than
the epsilon 0.00001, and a cursor with positive index is selected only when
its error exceeds the previously recorded maximum — which is at least 0 — by
more than epsilon. -/
theorem C5_amended_shaft_scan (errors : List ℚ) (hnn : ∀ e ∈ errors, 0 ≤ e) :
    0 ≤ (checkShaftCollision errors).1 ∧
    (checkShaftCollision errors = (0, 0) ∨
      (errors.get? (checkShaftCollision errors).2 = some (checkShaftCollision errors).1 ∧
        shaftEps < (checkShaftCollision errors).1)) ∧
    (∀ e ∈ errors, e ≤ (checkShaftCollision errors).1 + shaftEps) ∧
    ((checkShaftCollision errors).2 ≠ 0 → shaftEps < (checkShaftCollision errors).1) := by
  obtain ⟨h1, h2, h3⟩ := shaftLoop_spec errors 0 (0, 0) le_rfl hnn
  refine ⟨h1, ?_, h3, ?_⟩
  · rcases h2 with h | ⟨k, hk1, hk2, hk3⟩
    · exact Or.inl h
    · exact Or.inr ⟨by unfold checkShaftCollision; rw [hk2]; simpa using hk1, hk3⟩
  · intro ht
    rcases h2 with h | ⟨k, hk1, hk2, hk3⟩
    · exact absurd (show (checkShaftCollision errors).2 = 0 by unfold checkShaftCollision; rw [h]) ht
    · exact hk3

/-- Witness for C5 amended on a concrete error list. -/
theorem C5_amended_witness :
    (∀ e ∈ ([0, 3, 1] : List ℚ), 0 ≤ e) ∧
    (0 ≤ (checkShaftCollision [0, 3, 1]).1 ∧
    (checkShaftCollision [0, 3, 1] = (0, 0) ∨
      (([0, 3, 1] : List ℚ).get? (checkShaftCollision [0, 3, 1]).2 = some (checkShaftCollision [0, 3, 1]).1 ∧
        shaftEps < (checkShaftCollision [0, 3, 1]).1)) ∧
    (∀ e ∈ ([0, 3, 1] : List ℚ), e ≤ (checkShaftCollision [0, 3, 1]).1 + shaftEps) ∧
    ((checkShaftCollision [0, 3, 1]).2 ≠ 0 → shaftEps < (checkShaftCollision [0, 3, 1]).1)) :=
  ⟨by norm_num, C5_amended_shaft_scan [0, 3, 1] (by norm_num)⟩

/-- C6: after draining a list of voxels the dirty region contains every
removed index, hence the index-wise bounding box of all of them; the
graphics-side update hands the accumulated region to the partial-update call
and resets the region to empty; and accumulation after a clear restarts from
the empty region, reproducing exactly the bounding box of the new removals. -/
theorem C6_dirty_region (st : CarveState) (l l2 : List Voxel) (ts : TickState)
    (hflag : ts.flagMark = true) :
    (∀ v ∈ l, Region.containsPt (drainAll st l).region v) ∧
    Region.le (boundingBox l) (drainAll st l).region ∧
    (graphicsUpdate ts).2 = ts.region ∧
    (graphicsUpdate ts).1.region = Region.empty ∧
    List.foldl Region.enclose (graphicsUpdate ts).1.region l2 = boundingBox l2 := by
  obtain ⟨newEvs, hev, hmap, hcrit, hreg, hcol⟩ := drainAll_spec l st
  have hcont : ∀ v ∈ l, Region.containsPt (drainAll st l).region v := by
    intro v hv
    rw [hreg]
    exact foldl_enclose_containsPt_mem _ _ _ (List.mem_reverse.mpr hv)
  refine ⟨hcont, boundingBox_le hcont, ?_, ?_, ?_⟩
  · simp [graphicsUpdate, hflag]
  · simp [graphicsUpdate, hflag]
  · simp [graphicsUpdate, hflag, boundingBox, Region.empty]

/-- Tick state with a marked volume and a non-empty region, for witnesses. -/
def regionTickExample : TickState :=
  ⟨fun _ => m_boneColor, false, some ((0, 0, 0), (2, 2, 2)), true⟩

/-- Witness for C6 at concrete inputs. -/
theorem C6_witness :
    regionTickExample.flagMark = true ∧
    ((∀ v ∈ [((0, 0, 0) : Voxel)],
        Region.containsPt (drainAll ⟨fun _ => m_boneColor, [], false, Region.empty⟩ [(0, 0, 0)]).region v) ∧
    Region.le (boundingBox [(0, 0, 0)])
      (drainAll ⟨fun _ => m_boneColor, [], false, Region.empty⟩ [(0, 0, 0)]).region ∧
    (graphicsUpdate regionTickExample).2 = regionTickExample.region ∧
    (graphicsUpdate regionTickExample).1.region = Region.empty ∧
    List.foldl Region.enclose (graphicsUpdate regionTickExample).1.region [(1, 2, 3)] =
      boundingBox [(1, 2, 3)]) :=
  ⟨rfl, C6_dirty_region ⟨fun _ => m_boneColor, [], false, Region.empty⟩ [(0, 0, 0)] [(1, 2, 3)]
    regionTickExample rfl⟩

/-- C7: changeDrillSize cycles the size 2mm, 4mm, 6mm and back to 2mm on
successive calls from the initial state, and after every call, from any
state, the tip tool cursor radius equals the burr mesh radius. -/
theorem C7_drill_size_cycle :
    (∀ s : DrillSizeState, (changeDrillSize s).tipRadius = (changeDrillSize s).burrRadius) ∧
    changeDrillSize initDrillSizeState = ⟨1, 0.0805, 0.0805, 4⟩ ∧
    changeDrillSize (changeDrillSize initDrillSizeState) = ⟨2, 0.1208, 0.1208, 6⟩ ∧
    changeDrillSize (changeDrillSize (changeDrillSize initDrillSizeState)) = ⟨0, 0.0403, 0.0403, 2⟩ ∧
    (∀ s : DrillSizeState, s.drillSizeIdx ≤ 2 →
      (changeDrillSize s).currDrillSize =
        if s.drillSizeIdx = 0 then 4 else if s.drillSizeIdx = 1 then 6 else 2) := by
  refine ⟨?_, rfl, rfl, rfl, ?_⟩
  · intro s
    rcases s with ⟨idx, tr, br, sz⟩
    match idx with
    | 0 => rfl
    | 1 => rfl
    | 2 => rfl
    | n + 3 =>
      have hgt : n + 3 + 1 > 2 := by omega
      simp only [changeDrillSize, if_pos hgt]
  · intro s hle
    rcases s with ⟨idx, tr, br, sz⟩
    interval_cases idx <;> rfl

/-- Witness for C7 at the initial state. -/
theorem C7_witness :
    initDrillSizeState.drillSizeIdx ≤ 2 ∧
    (changeDrillSize initDrillSizeState).currDrillSize =
      (if initDrillSizeState.drillSizeIdx = 0 then 4
       else if initDrillSizeState.drillSizeIdx = 1 then 6 else 2) :=
  ⟨by norm_num [initDrillSizeState],
    C7_drill_size_cycle.2.2.2.2 initDrillSizeState (by norm_num [initDrillSizeState])⟩

/-- Tick state with removals recorded in the region, for the reset claim. -/
def dirtyStateExample : TickState :=
  ⟨fun _ => m_zeroColor, false, some ((0, 0, 0), (2, 2, 2)), false⟩

/-- C8 counterexample: the keyboard volume reset restores every voxel color
but does not empty the plugin's dirty region. -/
theorem C8_counterexample :
    (keyboardResetVolume (fun _ => m_boneColor) dirtyStateExample).colors = (fun _ => m_boneColor) ∧
    (keyboardResetVolume (fun _ => m_boneColor) dirtyStateExample).region ≠ Region.empty :=
  ⟨rfl, by simp [keyboardResetVolume, dirtyStateExample, Region.empty]⟩

/-- C8 amended: the keyboard volume reset restores every voxel to its
original color but leaves the dirty region unchanged, and the plugin reset
touches neither; the dirty region is emptied only by the graphics update on a
tick where the volume is marked for update. -/
theorem C8_amended_reset (original : Voxel → Color) (st : TickState) :
    (keyboardResetVolume original st).colors = original ∧
    (keyboardResetVolume original st).region = st.region ∧
    (pluginReset st).colors = st.colors ∧
    (pluginReset st).region = st.region ∧
    (st.flagMark = true → (graphicsUpdate st).1.region = Region.empty) :=
  ⟨rfl, rfl, rfl, rfl, fun hf => by simp [graphicsUpdate, hf]⟩

/-- Witness for C8 amended at concrete inputs. -/
theorem C8_amended_witness :
    (keyboardResetVolume (fun _ => m_boneColor) regionTickExample).colors = (fun _ => m_boneColor) ∧
    (keyboardResetVolume (fun _ => m_boneColor) regionTickExample).region = regionTickExample.region ∧
    (pluginReset regionTickExample).colors = regionTickExample.colors ∧
    (pluginReset regionTickExample).region = regionTickExample.region ∧
    (graphicsUpdate regionTickExample).1.region = Region.empty := by
  have h := C8_amended_reset (fun _ => m_boneColor) regionTickExample
  exact ⟨h.1, h.2.1, h.2.2.1, h.2.2.2.1, h.2.2.2.2 rfl⟩

/-- Axis parameters with nonzero texture-coordinate span but zero texture
resolution, as permitted (with a warning) by init. -/
def zeroResAxis : AxisParams := ⟨0, 1, 0, 1, 0⟩

/-- C9 counterexample: with a zero texture resolution along an axis the
else-branch division is evaluated although its divisor
(textureCoordSpan * resolution) is zero; the texSpan guard alone does not
rule out a zero divisor. -/
theorem C9_counterexample :
    divisionEvaluated zeroResAxis ∧ texDivisor zeroResAxis = 0 := by
  constructor
  · norm_num [divisionEvaluated, zeroResAxis]
  · norm_num [texDivisor, zeroResAxis]

/-- C9 amended: the voxel size is the whole extent span when the
texture-coordinate span is zero and min(span, span / divisor) otherwise; the
divisor is nonzero whenever, in addition, the texture resolution along the
axis is nonzero. -/
theorem C9_amended_voxel_size (a : AxisParams) :
    (a.maxTextureCoord = a.minTextureCoord → computeVoxelSize a = extentSpan a) ∧
    (a.maxTextureCoord ≠ a.minTextureCoord →
      computeVoxelSize a = min (extentSpan a) (extentSpan a / texDivisor a) ∧
      (a.texSize ≠ 0 → texDivisor a ≠ 0)) := by
  constructor
  · intro h
    simp [computeVoxelSize, h]
  · intro h
    refine ⟨by simp [computeVoxelSize, h], fun hts => ?_⟩
    unfold texDivisor
    exact mul_ne_zero (sub_ne_zero.mpr h) (by exact_mod_cast hts)

/-- Witness for C9 amended at a concrete axis. -/
theorem C9_amended_witness :
    computeVoxelSize ⟨0, 1, 0, 1, 4⟩ =
      min (extentSpan ⟨0, 1, 0, 1, 4⟩) (extentSpan ⟨0, 1, 0, 1, 4⟩ / texDivisor ⟨0, 1, 0, 1, 4⟩) ∧
    texDivisor ⟨0, 1, 0, 1, 4⟩ ≠ 0 :=
  ⟨((C9_amended_voxel_size _).2 (by norm_num)).1,
    ((C9_amended_voxel_size _).2 (by norm_num)).2 (by norm_num)⟩
